import Mathlib

/-!
Verification of the `UpdateComponentsSchemaMatcher` validation utility
(`src/specification/0.9/eval/src/update_components_schema_matcher.ts` and the
`SchemaMatcher` / `ValidationResult` declarations it builds on).

The TypeScript code works over dynamically typed, JSON-like values.  We embed
those values as the inductive type `JValue` (JavaScript distinguishes
`undefined` from `null`, so both appear as constructors).  Member access on
`null`/`undefined` throws a `TypeError` in JavaScript; we model every member
access performed by the source with `jsGet`, which returns `Except Unit _`
(`.error ()` standing for the thrown `TypeError`).  An expected property value
(`propertyValue: any`) may be an ordinary value or a predicate function, so it
is embedded as the sum `Expected`.

Modelling notes, matching JavaScript semantics:
  * numbers are embedded as `Int` (the messages under validation carry
    integral numbers; NaN/float subtleties are not exercised by the code
    under verification),
  * `===` on two objects or two arrays is reference equality in JavaScript.
    Values reached by `validate` come from a JSON message, i.e. a tree, where
    distinct positions are distinct objects, so strict equality of two
    object/array operands is embedded as `false` (`jsStrictEq`),
  * `String.prototype.toLowerCase` is embedded as `strLower` (the ASCII
    case mapping, which is what the validated messages use),
  * `JSON.stringify` is embedded as `stringifyJ`, returning `none` for
    `undefined` (JavaScript returns the value `undefined` there, not a
    string); object fields whose value is `undefined` are dropped and
    `undefined` array elements serialize as `null`, as in JavaScript.
-/

set_option maxHeartbeats 1000000
set_option linter.unreachableTactic false
set_option linter.unusedTactic false

namespace A2UI

/-- JSON-like JavaScript runtime values. -/
inductive JValue where
  | undefined : JValue
  | null : JValue
  | bool : Bool → JValue
  | num : Int → JValue
  | str : String → JValue
  | arr : List JValue → JValue
  | obj : List (String × JValue) → JValue

/-- An expected property value (`propertyValue: any`): either an ordinary
value (`val`, with `val .undefined` embedding the JavaScript value `undefined`)
or a predicate function. -/
inductive Expected where
  | val : JValue → Expected
  | pred : (JValue → Bool) → Expected

/-- `propertyValue === undefined`. -/
def expIsUndefined : Expected → Bool
  | .val .undefined => true
  | _ => false

/-- JavaScript truthiness of a value. -/
def truthy : JValue → Bool
  | .undefined => false
  | .null => false
  | .bool b => b
  | .num n => !(n == 0)
  | .str s => !(s == "")
  | .arr _ => true
  | .obj _ => true

/-- Is the value `null` or `undefined` (member access on it throws)? -/
def nullish : JValue → Bool
  | .undefined => true
  | .null => true
  | _ => false

/-- Is the value exactly `undefined`? -/
def isUndef : JValue → Bool
  | .undefined => true
  | _ => false

/-- `Array.isArray`. -/
def isArrayJ : JValue → Bool
  | .arr _ => true
  | _ => false

/-- Look a key up in an object field list; a missing field reads as
`undefined`. -/
def findField : List (String × JValue) → String → JValue
  | [], _ => .undefined
  | (k, v) :: rest, key => if k == key then v else findField rest key

/-- Pure member access, defined only where the receiver is known not to be
`null`/`undefined` (reading a named property of a primitive yields
`undefined` in JavaScript; the properties read by this code never hit the
primitive prototype chain). -/
def dotGet : JValue → String → JValue
  | .obj fs, key => findField fs key
  | _, _ => .undefined

/-- Member access as performed by the source: throws (`.error ()`) on
`null`/`undefined`, otherwise as `dotGet`. -/
def jsGet : JValue → String → Except Unit JValue
  | .undefined, _ => .error ()
  | .null, _ => .error ()
  | v, key => .ok (dotGet v key)

/-- JavaScript strict equality `===` restricted to the values compared by the
source.  Two object (or array) operands are compared by reference in
JavaScript; operands coming from a JSON message tree are distinct objects, so
that case is embedded as `false`. -/
def jsStrictEq : JValue → JValue → Bool
  | .undefined, .undefined => true
  | .null, .null => true
  | .bool a, .bool b => a == b
  | .num a, .num b => a == b
  | .str a, .str b => a == b
  | _, _ => false

/-- JSON string escaping of one character (the escapes JavaScript emits for
the characters appearing in the validated messages). -/
def escChar (c : Char) : String :=
  if c = '\x22' then "\\\x22"
  else if c = '\\' then "\\\\"
  else if c = '\n' then "\\n"
  else if c = '\t' then "\\t"
  else if c = '\r' then "\\r"
  else String.singleton c

/-- A JSON string literal. -/
def jsonQuote (s : String) : String :=
  "\x22" ++ String.join (s.data.map escChar) ++ "\x22"

mutual

/-- `JSON.stringify`; `none` embeds the JavaScript result `undefined`
(returned for `undefined` input). -/
def stringifyJ : JValue → Option String
  | .undefined => none
  | .null => some "null"
  | .bool true => some "true"
  | .bool false => some "false"
  | .num n => some (toString n)
  | .str s => some (jsonQuote s)
  | .arr items => some ("[" ++ String.intercalate "," (stringifyArr items) ++ "]")
  | .obj fs => some ("\x7b" ++ String.intercalate "," (stringifyFields fs) ++ "\x7d")
termination_by v => sizeOf v

/-- Array elements; an `undefined` element serializes as `null`. -/
def stringifyArr : List JValue → List String
  | [] => []
  | v :: rest => ((stringifyJ v).getD "null") :: stringifyArr rest
termination_by l => sizeOf l

/-- Object fields; a field whose value is `undefined` is dropped. -/
def stringifyFields : List (String × JValue) → List String
  | [] => []
  | (k, v) :: rest =>
    match stringifyJ v with
    | none => stringifyFields rest
    | some sv => (jsonQuote k ++ ":" ++ sv) :: stringifyFields rest
termination_by l => sizeOf l

end

/-- `JSON.stringify(a) === JSON.stringify(b)` (both sides `undefined` compares
equal, as in JavaScript). -/
def jsonEq (a b : JValue) : Bool :=
  stringifyJ a == stringifyJ b

/-- Is the actual value a (non-array, non-null) object with a truthy `path`
field?  (`typeof actualValue === "object" && !Array.isArray(actualValue) &&
actualValue.path`.) -/
def isPathObject : JValue → Bool
  | .obj fs => truthy (findField fs "path")
  | _ => false

/-- `typeof item === "object" && item !== null` (arrays included). -/
def isNonNullObject : JValue → Bool
  | .obj _ => true
  | .arr _ => true
  | _ => false

/-- `String.prototype.toLowerCase` (ASCII case mapping), defined by
character-wise mapping so that concrete instances evaluate. -/
def strLower (s : String) : String := String.mk (s.data.map Char.toLower)

/-- The `compareStrings` helper of `valueMatches`. -/
def compareStrings (ci : Bool) (s1 s2 : String) : Bool :=
  if ci then strLower s1 == strLower s2 else s1 == s2

/-- A size bound for field lookup, used for termination of `valueMatches`. -/
theorem sizeOf_findField_le (fs : List (String × JValue)) (key : String) :
    sizeOf (findField fs key) ≤ sizeOf fs := by
  induction fs with
  | nil => simp [findField]
  | cons h rest ih =>
    obtain ⟨k, v⟩ := h
    simp only [findField]
    split
    · simp
      omega
    · simp
      omega

theorem sizeOf_dotGet_le (v : JValue) (key : String) :
    sizeOf (dotGet v key) ≤ sizeOf v := by
  cases v <;> simp [dotGet]
  case obj fs =>
    have := sizeOf_findField_le fs key
    omega

mutual

/-- The recursive `valueMatches(actualValue, expectedValue)` method
(`this.caseInsensitive` is the `ci` parameter).  Case order mirrors the
source: `null`/`undefined` guard, predicate dispatch, same-type primitive
comparisons, the `path`-object refusal, element-wise array search, and the
`JSON.stringify` fallback (an array with no element-wise match also falls
through to the stringify comparison, as in the source). -/
def valueMatches (ci : Bool) : JValue → Expected → Bool
  | .undefined, _ => false
  | .null, _ => false
  | a, .pred f => f a
  | .str s, .val (.str t) => compareStrings ci s t
  | .num a, .val (.num b) => a == b
  | .bool a, .val (.bool b) => a == b
  | a, .val ev =>
    if isPathObject a then false
    else
      (match a with
        | .arr items => arrayScan ci items ev
        | _ => false)
      || jsonEq a ev
termination_by a _ => sizeOf a
decreasing_by
  simp_wf

/-- The `for (const item of actualValue)` loop of `valueMatches`: a direct
match of the item, or a match of a truthy `label`/`value` sub-field of an
object item. -/
def arrayScan (ci : Bool) : List JValue → JValue → Bool
  | [], _ => false
  | item :: rest, ev =>
    valueMatches ci item (.val ev)
    || (isNonNullObject item &&
         ((truthy (dotGet item "label") && valueMatches ci (dotGet item "label") (.val ev))
          || (truthy (dotGet item "value") && valueMatches ci (dotGet item "value") (.val ev))))
    || arrayScan ci rest ev
termination_by l _ => sizeOf l
decreasing_by
  all_goals simp_wf
  all_goals
    (have h1 := sizeOf_dotGet_le item "label"
     have h2 := sizeOf_dotGet_le item "value"
     omega)

end

/-- The pass/fail outcome type (`schema_matcher.ts`). -/
structure ValidationResult where
  success : Bool
  error : Option String := none
deriving DecidableEq

/-- The matcher configuration established by the constructor (`propertyName`
and `propertyValue` are optional; `caseInsensitive` defaults to `false`). -/
structure UpdateComponentsSchemaMatcher where
  componentType : String
  propertyName : Option String := none
  propertyValue : Expected := .val .undefined
  caseInsensitive : Bool := false

/-- JavaScript truthiness of the optional `propertyName` (`undefined` and the
empty string are falsy). -/
def strOptTruthy : Option String → Bool
  | none => false
  | some s => !(s == "")

/-- Interpolation of `propertyValue` into a template literal through
`JSON.stringify` (a predicate function stringifies to `undefined`, which the
template renders as the text `undefined`). -/
def stringifyExpected : Expected → String
  | .val v => (stringifyJ v).getD "undefined"
  | .pred _ => "undefined"

def errNoUpdate : String :=
  "Expected a \x27updateComponents\x27 message but found none."

def errCompsNotArray : String :=
  "\x27updateComponents\x27 message does not contain a \x27components\x27 array."

def errNoType (ct : String) : String :=
  "Failed to find component of type \x27" ++ ct ++ "\x27."

def errNoPropVal (ct pn : String) (pv : Expected) : String :=
  "Failed to find component of type \x27" ++ ct ++ "\x27 with property \x27"
    ++ pn ++ "\x27 containing value " ++ stringifyExpected pv ++ "."

def errNoProp (ct pn : String) : String :=
  "Failed to find component of type \x27" ++ ct ++ "\x27 with property \x27"
    ++ pn ++ "\x27."

/-- `getComponentById(components, id)`: `components.find((c) => c.id === id)`
(`undefined` when absent); accessing `c.id` throws on a nullish element. -/
def getComponentById (components : List JValue) (idv : JValue) : Except Unit JValue :=
  match components with
  | [] => .ok .undefined
  | c :: rest =>
    (jsGet c "id").bind fun cid =>
      if jsStrictEq cid idv then .ok c else getComponentById rest idv

/-- The filter predicate `c.props && c.props.component === this.componentType`
(evaluating `c.props` throws on a nullish element). -/
def typeKeepE (ct : String) (c : JValue) : Except Unit Bool :=
  (jsGet c "props").bind fun p =>
    if truthy p then
      (jsGet p "component").bind fun comp => .ok (jsStrictEq comp (.str ct))
    else .ok false

/-- `components.filter(...)` with the predicate above (the callback runs on
every element, so a nullish element anywhere makes the whole call throw). -/
def matchingComponentsE (ct : String) : List JValue → Except Unit (List JValue)
  | [] => .ok []
  | c :: rest =>
    (typeKeepE ct c).bind fun keep =>
      (matchingComponentsE ct rest).bind fun tail =>
        .ok (if keep then c :: tail else tail)

/-- The Button/label special case: if the configured type is `"Button"`, the
property is `"label"` and the component has a truthy `child` reference,
resolve it among all components and match the expected value against the
`text` property of a child of type `"Text"`. -/
def buttonCheckE (m : UpdateComponentsSchemaMatcher) (pn : String)
    (components : List JValue) (properties : JValue) :
    Except Unit (Option ValidationResult) :=
  if m.componentType == "Button" && pn == "label" then
    (jsGet properties "child").bind fun child =>
      if truthy child then
        (getComponentById components child).bind fun childComponent =>
          if truthy childComponent then
            (jsGet childComponent "props").bind fun ccProps =>
              if truthy ccProps then
                (jsGet ccProps "component").bind fun ccType =>
                  if jsStrictEq ccType (.str "Text") then
                    (jsGet ccProps "text").bind fun textValue =>
                      if valueMatches m.caseInsensitive textValue m.propertyValue then
                        .ok (some ⟨true, none⟩)
                      else .ok none
                  else .ok none
              else .ok none
          else .ok none
      else .ok none
  else .ok none

/-- One iteration of `for (const component of matchingComponents)`:
`some r` is an in-loop `return r`, `none` means fall through to the next
component.  The direct property check runs first; whether or not the property
is present, a failed direct check falls through to the Button special case. -/
def componentStepE (m : UpdateComponentsSchemaMatcher) (pn : String)
    (components : List JValue) (component : JValue) :
    Except Unit (Option ValidationResult) :=
  (jsGet component "props").bind fun properties =>
    if truthy properties then
      (jsGet properties pn).bind fun actualValue =>
        if !isUndef actualValue then
          if expIsUndefined m.propertyValue then .ok (some ⟨true, none⟩)
          else if valueMatches m.caseInsensitive actualValue m.propertyValue then
            .ok (some ⟨true, none⟩)
          else buttonCheckE m pn components properties
        else buttonCheckE m pn components properties
    else .ok none

/-- The whole `for` loop over the matching components. -/
def componentLoopE (m : UpdateComponentsSchemaMatcher) (pn : String)
    (components : List JValue) : List JValue → Except Unit (Option ValidationResult)
  | [] => .ok none
  | c :: rest =>
    (componentStepE m pn components c).bind fun r =>
      match r with
      | some res => .ok (some res)
      | none => componentLoopE m pn components rest

/-- `UpdateComponentsSchemaMatcher.validate(schema)`.  `.error ()` embeds a
thrown `TypeError` (member access on `null`/`undefined`). -/
def validate (m : UpdateComponentsSchemaMatcher) (schema : JValue) :
    Except Unit ValidationResult :=
  (jsGet schema "updateComponents").bind fun uc =>
    if !truthy uc then .ok ⟨false, some errNoUpdate⟩
    else
      (jsGet uc "components").bind fun comps =>
        match comps with
        | .arr components =>
          (matchingComponentsE m.componentType components).bind fun matching =>
            if matching.length == 0 then .ok ⟨false, some (errNoType m.componentType)⟩
            else if !strOptTruthy m.propertyName then .ok ⟨true, none⟩
            else
              (componentLoopE m (m.propertyName.getD "") components matching).bind fun r =>
                match r with
                | some res => .ok res
                | none =>
                  if expIsUndefined m.propertyValue then
                    .ok ⟨false, some (errNoProp m.componentType (m.propertyName.getD ""))⟩
                  else
                    .ok ⟨false, some (errNoPropVal m.componentType (m.propertyName.getD "")
                           m.propertyValue)⟩
        | _ => .ok ⟨false, some errCompsNotArray⟩

/-! ## Infrastructure lemmas -/

theorem jsGet_of_not_nullish (v : JValue) (k : String) (h : nullish v = false) :
    jsGet v k = .ok (dotGet v k) := by
  cases v <;> simp_all [jsGet, nullish]

theorem nullish_of_truthy (v : JValue) (h : truthy v = true) : nullish v = false := by
  cases v <;> simp_all [truthy, nullish]

theorem typeKeepE_isOk (ct : String) (c : JValue) (h : nullish c = false) :
    ∃ b, typeKeepE ct c = .ok b := by
  rw [typeKeepE, jsGet_of_not_nullish c "props" h]
  simp only [Except.bind]
  by_cases hp : truthy (dotGet c "props") = true
  · rw [if_pos hp, jsGet_of_not_nullish _ "component" (nullish_of_truthy _ hp)]
    exact ⟨_, rfl⟩
  · rw [if_neg hp]
    exact ⟨false, rfl⟩

theorem typeKeepE_not_nullish (ct : String) (c : JValue) (b : Bool)
    (h : typeKeepE ct c = .ok b) : nullish c = false := by
  cases c <;> simp_all [typeKeepE, jsGet, Except.bind, nullish]

theorem matchingComponentsE_isOk (ct : String) (comps : List JValue)
    (h : ∀ x ∈ comps, nullish x = false) :
    ∃ l, matchingComponentsE ct comps = .ok l := by
  induction comps with
  | nil => exact ⟨[], rfl⟩
  | cons c rest ih =>
    obtain ⟨b, hb⟩ := typeKeepE_isOk ct c (h c (by simp))
    obtain ⟨l, hl⟩ := ih (fun x hx => h x (by simp [hx]))
    exact ⟨if b then c :: l else l, by rw [matchingComponentsE, hb]; simp [Except.bind, hl]⟩

theorem matchingComponentsE_notNull (ct : String) (comps : List JValue) (l : List JValue)
    (h : matchingComponentsE ct comps = .ok l) :
    ∀ x ∈ comps, nullish x = false := by
  induction comps generalizing l with
  | nil => simp
  | cons c rest ih =>
    intro x hx
    cases hk : typeKeepE ct c with
    | error e => rw [matchingComponentsE, hk] at h; simp [Except.bind] at h
    | ok b =>
      cases hr : matchingComponentsE ct rest with
      | error e => rw [matchingComponentsE, hk, hr] at h; simp [Except.bind] at h
      | ok tail =>
        rcases List.mem_cons.mp hx with hx | hx
        · subst hx; exact typeKeepE_not_nullish ct x b hk
        · exact ih tail hr x hx

theorem matchingComponentsE_sub (ct : String) (comps : List JValue) (l : List JValue)
    (h : matchingComponentsE ct comps = .ok l) :
    ∀ c ∈ l, c ∈ comps := by
  induction comps generalizing l with
  | nil =>
    intro c hc
    rw [matchingComponentsE] at h
    cases h
    simp at hc
  | cons c0 rest ih =>
    intro c hc
    cases hk : typeKeepE ct c0 with
    | error e => rw [matchingComponentsE, hk] at h; simp [Except.bind] at h
    | ok b =>
      cases hr : matchingComponentsE ct rest with
      | error e => rw [matchingComponentsE, hk, hr] at h; simp [Except.bind] at h
      | ok tail =>
        rw [matchingComponentsE, hk] at h
        simp [Except.bind, hr] at h
        subst h
        by_cases hb : b = true
        · rw [if_pos hb] at hc
          rcases List.mem_cons.mp hc with hc | hc
          · simp [hc]
          · simp [ih tail hr c hc]
        · rw [if_neg hb] at hc
          simp [ih tail hr c hc]

theorem matchingComponentsE_mem (ct : String) (comps : List JValue) (l : List JValue)
    (c : JValue) (h : matchingComponentsE ct comps = .ok l) (hc : c ∈ comps)
    (hk : typeKeepE ct c = .ok true) : c ∈ l := by
  induction comps generalizing l with
  | nil => simp at hc
  | cons c0 rest ih =>
    cases hk0 : typeKeepE ct c0 with
    | error e => rw [matchingComponentsE, hk0] at h; simp [Except.bind] at h
    | ok b =>
      cases hr : matchingComponentsE ct rest with
      | error e => rw [matchingComponentsE, hk0, hr] at h; simp [Except.bind] at h
      | ok tail =>
        rw [matchingComponentsE, hk0] at h
        simp [Except.bind, hr] at h
        subst h
        rcases List.mem_cons.mp hc with hceq | hcm
        · subst hceq
          rw [hk0] at hk
          cases hk
          simp
        · have := ih tail hr hcm
          by_cases hb : b = true <;> simp [hb, this]

theorem matchingComponentsE_sound (ct : String) (comps : List JValue) (l : List JValue)
    (c : JValue) (h : matchingComponentsE ct comps = .ok l) (hc : c ∈ l) :
    typeKeepE ct c = .ok true := by
  induction comps generalizing l with
  | nil =>
    rw [matchingComponentsE] at h
    cases h
    simp at hc
  | cons c0 rest ih =>
    cases hk0 : typeKeepE ct c0 with
    | error e => rw [matchingComponentsE, hk0] at h; simp [Except.bind] at h
    | ok b =>
      cases hr : matchingComponentsE ct rest with
      | error e => rw [matchingComponentsE, hk0, hr] at h; simp [Except.bind] at h
      | ok tail =>
        rw [matchingComponentsE, hk0] at h
        simp [Except.bind, hr] at h
        subst h
        by_cases hb : b = true
        · rw [if_pos hb] at hc
          rcases List.mem_cons.mp hc with hceq | hcm
          · subst hceq; rw [hk0, hb]
          · exact ih tail hr hcm
        · rw [if_neg hb] at hc
          exact ih tail hr hc

theorem getComponentById_isOk (comps : List JValue) (idv : JValue)
    (h : ∀ x ∈ comps, nullish x = false) :
    ∃ w, getComponentById comps idv = .ok w := by
  induction comps with
  | nil => exact ⟨.undefined, rfl⟩
  | cons c rest ih =>
    rw [getComponentById, jsGet_of_not_nullish c "id" (h c (by simp))]
    simp only [Except.bind]
    by_cases hs : jsStrictEq (dotGet c "id") idv = true
    · rw [if_pos hs]; exact ⟨c, rfl⟩
    · rw [if_neg hs]; exact ih (fun x hx => h x (by simp [hx]))

theorem buttonCheckE_isOk (m : UpdateComponentsSchemaMatcher) (pn : String)
    (comps : List JValue) (properties : JValue)
    (hp : nullish properties = false)
    (h : ∀ x ∈ comps, nullish x = false) :
    ∃ o, buttonCheckE m pn comps properties = .ok o := by
  rw [buttonCheckE]
  by_cases h1 : (m.componentType == "Button" && pn == "label") = true
  case neg => rw [if_neg h1]; exact ⟨none, rfl⟩
  rw [if_pos h1, jsGet_of_not_nullish properties "child" hp]
  simp only [Except.bind]
  by_cases h2 : truthy (dotGet properties "child") = true
  case neg => rw [if_neg h2]; exact ⟨none, rfl⟩
  rw [if_pos h2]
  obtain ⟨w, hw⟩ := getComponentById_isOk comps (dotGet properties "child") h
  rw [hw]
  simp only [Except.bind]
  by_cases h3 : truthy w = true
  case neg => rw [if_neg h3]; exact ⟨none, rfl⟩
  rw [if_pos h3, jsGet_of_not_nullish w "props" (nullish_of_truthy _ h3)]
  simp only [Except.bind]
  by_cases h4 : truthy (dotGet w "props") = true
  case neg => rw [if_neg h4]; exact ⟨none, rfl⟩
  rw [if_pos h4, jsGet_of_not_nullish _ "component" (nullish_of_truthy _ h4)]
  simp only [Except.bind]
  by_cases h5 : jsStrictEq (dotGet (dotGet w "props") "component") (.str "Text") = true
  case neg => rw [if_neg h5]; exact ⟨none, rfl⟩
  rw [if_pos h5, jsGet_of_not_nullish _ "text" (nullish_of_truthy _ h4)]
  simp only [Except.bind]
  by_cases h6 : valueMatches m.caseInsensitive (dotGet (dotGet w "props") "text") m.propertyValue = true
  · rw [if_pos h6]; exact ⟨some ⟨true, none⟩, rfl⟩
  · rw [if_neg h6]; exact ⟨none, rfl⟩

theorem buttonCheckE_some (m : UpdateComponentsSchemaMatcher) (pn : String)
    (comps : List JValue) (properties : JValue) (r : ValidationResult)
    (h : buttonCheckE m pn comps properties = .ok (some r)) : r = ⟨true, none⟩ := by
  rw [buttonCheckE] at h
  split at h
  case isFalse => cases h
  cases hc : jsGet properties "child" with
  | error e => rw [hc] at h; simp [Except.bind] at h
  | ok child =>
    rw [hc] at h
    simp only [Except.bind] at h
    split at h
    case isFalse => cases h
    cases hf : getComponentById comps child with
    | error e => rw [hf] at h; simp [Except.bind] at h
    | ok w =>
      rw [hf] at h
      simp only [Except.bind] at h
      split at h
      case isFalse => cases h
      cases hq : jsGet w "props" with
      | error e => rw [hq] at h; simp [Except.bind] at h
      | ok q =>
        rw [hq] at h
        simp only [Except.bind] at h
        split at h
        case isFalse => cases h
        cases ht : jsGet q "component" with
        | error e => rw [ht] at h; simp [Except.bind] at h
        | ok tv =>
          rw [ht] at h
          simp only [Except.bind] at h
          split at h
          case isFalse => cases h
          cases hx : jsGet q "text" with
          | error e => rw [hx] at h; simp [Except.bind] at h
          | ok xv =>
            rw [hx] at h
            simp only [Except.bind] at h
            split at h
            · cases h; rfl
            · cases h

theorem componentStepE_isOk (m : UpdateComponentsSchemaMatcher) (pn : String)
    (comps : List JValue) (c : JValue)
    (hc : nullish c = false)
    (h : ∀ x ∈ comps, nullish x = false) :
    ∃ o, componentStepE m pn comps c = .ok o := by
  rw [componentStepE, jsGet_of_not_nullish c "props" hc]
  simp only [Except.bind]
  by_cases h1 : truthy (dotGet c "props") = true
  case neg => rw [if_neg h1]; exact ⟨none, rfl⟩
  rw [if_pos h1, jsGet_of_not_nullish _ pn (nullish_of_truthy _ h1)]
  simp only [Except.bind]
  by_cases h2 : (!isUndef (dotGet (dotGet c "props") pn)) = true
  case neg =>
    rw [if_neg h2]
    exact buttonCheckE_isOk m pn comps (dotGet c "props") (nullish_of_truthy _ h1) h
  rw [if_pos h2]
  by_cases h3 : expIsUndefined m.propertyValue = true
  case pos => rw [if_pos h3]; exact ⟨some ⟨true, none⟩, rfl⟩
  rw [if_neg h3]
  by_cases h4 : valueMatches m.caseInsensitive (dotGet (dotGet c "props") pn) m.propertyValue = true
  · rw [if_pos h4]; exact ⟨some ⟨true, none⟩, rfl⟩
  · rw [if_neg h4]
    exact buttonCheckE_isOk m pn comps (dotGet c "props") (nullish_of_truthy _ h1) h

theorem componentStepE_some (m : UpdateComponentsSchemaMatcher) (pn : String)
    (comps : List JValue) (c : JValue) (r : ValidationResult)
    (h : componentStepE m pn comps c = .ok (some r)) : r = ⟨true, none⟩ := by
  rw [componentStepE] at h
  cases hp : jsGet c "props" with
  | error e => rw [hp] at h; simp [Except.bind] at h
  | ok properties =>
    rw [hp] at h
    simp only [Except.bind] at h
    split at h
    case isFalse => cases h
    cases ha : jsGet properties pn with
    | error e => rw [ha] at h; simp [Except.bind] at h
    | ok av =>
      rw [ha] at h
      simp only [Except.bind] at h
      split at h
      case isTrue =>
        split at h
        case isTrue => cases h; rfl
        split at h
        case isTrue => cases h; rfl
        case isFalse => exact buttonCheckE_some m pn comps properties r h
      case isFalse => exact buttonCheckE_some m pn comps properties r h

theorem componentLoopE_isOk (m : UpdateComponentsSchemaMatcher) (pn : String)
    (comps : List JValue) (matching : List JValue)
    (h : ∀ x ∈ matching, ∃ o, componentStepE m pn comps x = .ok o) :
    ∃ o, componentLoopE m pn comps matching = .ok o := by
  induction matching with
  | nil => exact ⟨none, rfl⟩
  | cons c rest ih =>
    obtain ⟨o, ho⟩ := h c (by simp)
    rw [componentLoopE, ho]
    simp only [Except.bind]
    cases o with
    | some res => exact ⟨some res, rfl⟩
    | none => exact ih (fun x hx => h x (by simp [hx]))

theorem componentLoopE_some (m : UpdateComponentsSchemaMatcher) (pn : String)
    (comps : List JValue) (matching : List JValue) (r : ValidationResult)
    (h : componentLoopE m pn comps matching = .ok (some r)) : r = ⟨true, none⟩ := by
  induction matching with
  | nil => rw [componentLoopE] at h; cases h
  | cons c rest ih =>
    cases hs : componentStepE m pn comps c with
    | error e => rw [componentLoopE, hs] at h; simp [Except.bind] at h
    | ok o =>
      rw [componentLoopE, hs] at h
      simp only [Except.bind] at h
      cases o with
      | some res =>
        cases h
        exact componentStepE_some m pn comps c r hs
      | none => exact ih h

theorem componentLoopE_success (m : UpdateComponentsSchemaMatcher) (pn : String)
    (comps : List JValue) (matching : List JValue) (c : JValue) (r : ValidationResult)
    (hmem : c ∈ matching)
    (hstep : componentStepE m pn comps c = .ok (some r))
    (hall : ∀ x ∈ matching, ∃ o, componentStepE m pn comps x = .ok o) :
    ∃ r2, componentLoopE m pn comps matching = .ok (some r2) := by
  induction matching with
  | nil => simp at hmem
  | cons c0 rest ih =>
    obtain ⟨o, ho⟩ := hall c0 (by simp)
    rw [componentLoopE, ho]
    simp only [Except.bind]
    cases o with
    | some res => exact ⟨res, rfl⟩
    | none =>
      rcases List.mem_cons.mp hmem with hceq | hcm
      · subst hceq
        rw [hstep] at ho
        cases ho
      · exact ih hcm (fun x hx => hall x (by simp [hx]))

/-! ## Substring helper for "the error mentions ..." statements -/

/-- Does `pat` occur as a contiguous run inside `l`? -/
def charsContain (pat : List Char) : List Char → Bool
  | [] => List.isPrefixOf pat []
  | c :: rest => List.isPrefixOf pat (c :: rest) || charsContain pat rest

/-- Does the string `s` mention `pat` (contain it as a substring)? -/
def mentions (s pat : String) : Bool := charsContain pat.data s.data

/-- A convenient message shape: `{ updateComponents: { components: [...] } }`. -/
def mkMsg (comps : List JValue) : JValue :=
  .obj [("updateComponents", .obj [("components", .arr comps)])]

/-! ## Claims -/

/-- Claim C5: for every matcher configuration and every message object that
lacks an `updateComponents` field, `validate` returns a failing
`ValidationResult` whose error mentions "updateComponents". -/
theorem c5_missing_updateComponents (m : UpdateComponentsSchemaMatcher)
    (fs : List (String × JValue))
    (h : findField fs "updateComponents" = .undefined) :
    validate m (.obj fs) = .ok ⟨false, some errNoUpdate⟩ ∧
    mentions errNoUpdate "updateComponents" = true := by
  constructor
  · rw [validate]
    simp [jsGet, dotGet, h, Except.bind, truthy]
  · decide

/-- Witness for C5 at the empty message object. -/
theorem c5_witness :
    validate ⟨"Button", none, .val .undefined, false⟩ (.obj []) =
      .ok ⟨false, some errNoUpdate⟩ ∧
    mentions errNoUpdate "updateComponents" = true :=
  c5_missing_updateComponents ⟨"Button", none, .val .undefined, false⟩ [] rfl

/-- Claim C6 counterexample: in the message `{ updateComponents: 0 }` the
`updateComponents` field is present (it reads as `0`, not `undefined`) and
its `components` field is not an array, yet `validate` reports the
missing-`updateComponents` error, which does not mention "components"
(the falsy field value short-circuits the first check). -/
theorem c6_counterexample :
    findField [("updateComponents", JValue.num 0)] "updateComponents" = .num 0 ∧
    isArrayJ (dotGet (.num 0) "components") = false ∧
    validate ⟨"Button", none, .val .undefined, false⟩
      (.obj [("updateComponents", .num 0)]) = .ok ⟨false, some errNoUpdate⟩ ∧
    mentions errNoUpdate "components" = false :=
  ⟨rfl, rfl, rfl, by decide⟩

/-- Claim C6 (amended): for every matcher configuration and every message
whose `updateComponents` field is present and truthy but whose
`updateComponents.components` field is not an array, `validate` returns
`success = false` with an error mentioning "components". -/
theorem c6_components_not_array (m : UpdateComponentsSchemaMatcher)
    (v uc : JValue)
    (h1 : jsGet v "updateComponents" = .ok uc)
    (h2 : truthy uc = true)
    (h3 : isArrayJ (dotGet uc "components") = false) :
    validate m v = .ok ⟨false, some errCompsNotArray⟩ ∧
    mentions errCompsNotArray "components" = true := by
  constructor
  · rw [validate, h1]
    simp only [Except.bind, h2, Bool.not_true, Bool.false_eq_true, if_false]
    rw [jsGet_of_not_nullish uc "components" (nullish_of_truthy uc h2)]
    simp only [Except.bind]
    cases hd : dotGet uc "components" <;> simp_all [isArrayJ]
  · decide

/-- Witness for C6 (amended): `updateComponents` is a (truthy) empty object,
so `components` reads as `undefined`. -/
theorem c6_witness :
    validate ⟨"Button", none, .val .undefined, false⟩
      (.obj [("updateComponents", .obj [])]) =
      .ok ⟨false, some errCompsNotArray⟩ ∧
    mentions errCompsNotArray "components" = true :=
  c6_components_not_array ⟨"Button", none, .val .undefined, false⟩
    (.obj [("updateComponents", .obj [])]) (.obj []) rfl rfl rfl

/-- Claim C7: when both the actual and expected values are strings,
`valueMatches` compares their lowercasings exactly when the matcher is
case-insensitive and compares them exactly otherwise; in particular "Hello"
matches "hello" precisely when `caseInsensitive = true`. -/
theorem c7_string_case_sensitivity :
    (∀ s t, valueMatches true (.str s) (.val (.str t)) = (strLower s == strLower t)) ∧
    (∀ s t, valueMatches false (.str s) (.val (.str t)) = (s == t)) ∧
    valueMatches true (.str "Hello") (.val (.str "hello")) = true ∧
    valueMatches false (.str "Hello") (.val (.str "hello")) = false := by
  refine ⟨?_, ?_, ?_, ?_⟩
  · intro s t; simp [valueMatches, compareStrings]
  · intro s t; simp [valueMatches, compareStrings]
  · simp only [valueMatches]; decide
  · simp only [valueMatches]; decide

/-- Claim C8 counterexample: an actual value that is a non-array object with
a (falsy) `path` field can still be a literal match: the truthiness test
`actualValue.path` fails for `path: false`, and the `JSON.stringify`
fallback then equates it with an identical expected object. -/
theorem c8_counterexample :
    findField [("path", JValue.bool false)] "path" = .bool false ∧
    valueMatches false (.obj [("path", .bool false)])
      (.val (.obj [("path", .bool false)])) = true := by
  refine ⟨rfl, ?_⟩
  simp [valueMatches, isPathObject, findField, truthy, jsonEq]

/-- Claim C8 (amended): for every non-function (literal) expected value, if
the actual value is a non-array object whose `path` field is truthy,
`valueMatches` returns `false`. -/
theorem c8_path_object_never_matches (ci : Bool) (fs : List (String × JValue))
    (ev : JValue) (h : truthy (findField fs "path") = true) :
    valueMatches ci (.obj fs) (.val ev) = false := by
  simp [valueMatches, isPathObject, h]

/-- Witness for C8 (amended). -/
theorem c8_witness :
    valueMatches false (.obj [("path", .str "user.name")]) (.val (.str "x")) = false :=
  c8_path_object_never_matches false [("path", .str "user.name")] (.str "x") rfl

theorem jsStrictEq_str_right (x : JValue) (t : String)
    (h : jsStrictEq x (.str t) = true) : x = .str t := by
  cases x <;> simp_all [jsStrictEq]

/-- Claim C3 counterexample: when the actual value of the configured property
on a matching component is `null`, the `null`/`undefined` guard of
`valueMatches` returns `false` without consulting the predicate, so an
always-true predicate does not determine the match. -/
theorem c3_counterexample :
    valueMatches false .null (.pred (fun _ => true)) = false ∧
    (fun (_ : JValue) => true) .null = true ∧
    validate ⟨"Foo", some "bar", .pred (fun _ => true), false⟩
      (mkMsg [.obj [("props", .obj [("component", .str "Foo"), ("bar", .null)])]]) =
      .ok ⟨false, some (errNoPropVal "Foo" "bar" (.pred (fun _ => true)))⟩ := by
  refine ⟨by simp [valueMatches], rfl, ?_⟩
  simp [validate, mkMsg, jsGet, dotGet, findField, truthy, Except.bind,
    matchingComponentsE, typeKeepE, jsStrictEq, strOptTruthy, componentLoopE,
    componentStepE, buttonCheckE, isUndef, expIsUndefined, valueMatches]

/-- Claim C3 (amended): for every non-null, non-undefined actual value, a
predicate expected value is evaluated on the actual value and its boolean
result alone determines the match. -/
theorem c3_predicate_result (ci : Bool) (f : JValue → Bool) (a : JValue)
    (h1 : a ≠ .null) (h2 : a ≠ .undefined) :
    valueMatches ci a (.pred f) = f a := by
  cases a <;> simp_all [valueMatches]

/-- Witness for C3 (amended). -/
theorem c3_witness :
    valueMatches false (.str "go") (.pred (fun v => jsStrictEq v (.str "go"))) =
      (fun v => jsStrictEq v (.str "go")) (.str "go") :=
  c3_predicate_result false (fun v => jsStrictEq v (.str "go")) (.str "go")
    (by simp) (by simp)

/-- Claim C10: component selection compares `props.component` with the
configured type by strict, case-sensitive equality, independent of the
`caseInsensitive` flag: every component kept by the filter has
`props.component` exactly equal to the configured type (the filter predicate
takes no case-insensitivity input at all), and even with
`caseInsensitive = true` a component whose type differs from the configured
type only in letter case is not selected, so `validate` fails to find the
type. -/
theorem c10_type_match_case_sensitive :
    (∀ (ct : String) (c : JValue), typeKeepE ct c = .ok true →
      ∃ p, jsGet c "props" = .ok p ∧ truthy p = true ∧
        dotGet p "component" = .str ct) ∧
    (∀ (ct s : String) (pn : Option String) (pv : Expected),
      strLower s = strLower ct → s ≠ ct →
      validate ⟨ct, pn, pv, true⟩
        (mkMsg [.obj [("props", .obj [("component", .str s)])]]) =
        .ok ⟨false, some (errNoType ct)⟩) := by
  constructor
  · intro ct c h
    have hcn : nullish c = false := typeKeepE_not_nullish ct c true h
    rw [typeKeepE, jsGet_of_not_nullish c "props" hcn] at h
    simp only [Except.bind] at h
    refine ⟨dotGet c "props", jsGet_of_not_nullish c "props" hcn, ?_⟩
    by_cases hp : truthy (dotGet c "props") = true
    · rw [if_pos hp, jsGet_of_not_nullish _ "component" (nullish_of_truthy _ hp)] at h
      simp only [Except.bind, Except.ok.injEq] at h
      exact ⟨hp, jsStrictEq_str_right _ ct h⟩
    · rw [if_neg hp] at h
      simp at h
  · intro ct s pn pv hlow hne
    have hbeq : (s == ct) = false := beq_eq_false_iff_ne.mpr hne
    simp [validate, mkMsg, jsGet, dotGet, findField, truthy, Except.bind,
      matchingComponentsE, typeKeepE, jsStrictEq, hbeq]

/-- Witness for C10 at "Button" versus "button". -/
theorem c10_witness :
    validate ⟨"Button", none, .val .undefined, true⟩
      (mkMsg [.obj [("props", .obj [("component", .str "button")])]]) =
      .ok ⟨false, some (errNoType "Button")⟩ :=
  c10_type_match_case_sensitive.2 "Button" "button" none (.val .undefined)
    (by decide) (by decide)

/-- Claim C1 counterexample: the components array
`[null, { props: { component: "Button" } }]` contains a component of the
configured type, and no property name is configured, yet `validate` throws a
`TypeError` (the filter callback reads `c.props` on the `null` element)
instead of returning a successful result. -/
theorem c1_counterexample :
    typeKeepE "Button" (.obj [("props", .obj [("component", .str "Button")])]) = .ok true ∧
    validate ⟨"Button", none, .val .undefined, false⟩
      (mkMsg [.null, .obj [("props", .obj [("component", .str "Button")])]]) = .error () :=
  ⟨rfl, rfl⟩

/-- Claim C1 (amended): with no property name configured, for every message
whose `updateComponents.components` array contains no null/undefined
elements and contains at least one component of the configured type,
`validate` returns `{ success: true }`. -/
theorem c1_success_without_property (ct : String) (pv : Expected) (ci : Bool)
    (v uc : JValue) (comps : List JValue) (c : JValue)
    (h1 : jsGet v "updateComponents" = .ok uc)
    (h2 : truthy uc = true)
    (h3 : dotGet uc "components" = .arr comps)
    (hnn : ∀ x ∈ comps, nullish x = false)
    (hc : c ∈ comps)
    (hk : typeKeepE ct c = .ok true) :
    validate ⟨ct, none, pv, ci⟩ v = .ok ⟨true, none⟩ := by
  obtain ⟨l, hl⟩ := matchingComponentsE_isOk ct comps hnn
  have hmem := matchingComponentsE_mem ct comps l c hl hc hk
  have hne : (l.length == 0) = false := by
    cases l
    · simp at hmem
    · simp
  rw [validate, h1]
  dsimp only
  simp only [Except.bind, h2, Bool.not_true, Bool.false_eq_true, if_false]
  rw [jsGet_of_not_nullish uc "components" (nullish_of_truthy uc h2), h3]
  simp only [Except.bind]
  rw [hl]
  simp [hne, strOptTruthy]

/-- Witness for C1 (amended). -/
theorem c1_witness :
    validate ⟨"Button", none, .val .undefined, false⟩
      (mkMsg [.obj [("props", .obj [("component", .str "Button")])]]) =
      .ok ⟨true, none⟩ :=
  c1_success_without_property "Button" (.val .undefined) false _
    (.obj [("components", .arr [.obj [("props", .obj [("component", .str "Button")])]])])
    [.obj [("props", .obj [("component", .str "Button")])]]
    (.obj [("props", .obj [("component", .str "Button")])])
    rfl rfl rfl (by simp [nullish]) (by simp) rfl

/-- Claim C2: for a matcher configured with componentType "Button",
propertyName "label" and an expected value: if a matching Button component
(member of the filtered list) has no direct `label` property but its
`props.child` reference resolves by identifier among all components to a
truthy component whose `props.component` is "Text" and whose `props.text`
matches the expected value under the value-matching rules, then `validate`
succeeds. -/
theorem c2_button_child_text (pv : Expected) (ci : Bool)
    (v uc : JValue) (comps l : List JValue) (c p cc q : JValue)
    (h1 : jsGet v "updateComponents" = .ok uc)
    (h2 : truthy uc = true)
    (h3 : dotGet uc "components" = .arr comps)
    (hl : matchingComponentsE "Button" comps = .ok l)
    (hc : c ∈ l)
    (hp : jsGet c "props" = .ok p)
    (hpt : truthy p = true)
    (hlabel : dotGet p "label" = .undefined)
    (hchild : truthy (dotGet p "child") = true)
    (hfind : getComponentById comps (dotGet p "child") = .ok cc)
    (hcc : truthy cc = true)
    (hq : jsGet cc "props" = .ok q)
    (hqt : truthy q = true)
    (hqc : dotGet q "component" = .str "Text")
    (hmatch : valueMatches ci (dotGet q "text") pv = true) :
    validate ⟨"Button", some "label", pv, ci⟩ v = .ok ⟨true, none⟩ := by
  have hpn : nullish p = false := nullish_of_truthy p hpt
  have hqn : nullish q = false := nullish_of_truthy q hqt
  have hstep : componentStepE ⟨"Button", some "label", pv, ci⟩ "label" comps c
      = .ok (some ⟨true, none⟩) := by
    rw [componentStepE, hp]
    simp only [Except.bind]
    rw [if_pos hpt, jsGet_of_not_nullish p "label" hpn, hlabel]
    simp only [Except.bind, isUndef, Bool.not_true, Bool.false_eq_true, if_false]
    rw [buttonCheckE]
    dsimp only
    simp only [beq_self_eq_true, Bool.and_self, if_true]
    rw [jsGet_of_not_nullish p "child" hpn]
    simp only [Except.bind]
    rw [if_pos hchild, hfind]
    simp only [Except.bind]
    rw [if_pos hcc, hq]
    simp only [Except.bind]
    rw [if_pos hqt, jsGet_of_not_nullish q "component" hqn, hqc]
    simp only [Except.bind]
    rw [if_pos (show jsStrictEq (.str "Text") (.str "Text") = true by simp [jsStrictEq])]
    rw [jsGet_of_not_nullish q "text" hqn]
    simp only [Except.bind]
    rw [if_pos hmatch]
  have hnn := matchingComponentsE_notNull "Button" comps l hl
  have hsub := matchingComponentsE_sub "Button" comps l hl
  have hallok : ∀ x ∈ l, ∃ o,
      componentStepE ⟨"Button", some "label", pv, ci⟩ "label" comps x = .ok o :=
    fun x hx => componentStepE_isOk _ _ _ _ (hnn x (hsub x hx)) hnn
  obtain ⟨r2, hloop⟩ := componentLoopE_success _ "label" comps l c _ hc hstep hallok
  have hr2 : r2 = ⟨true, none⟩ := componentLoopE_some _ "label" comps l r2 hloop
  subst hr2
  have hne : (l.length == 0) = false := by
    cases l
    · simp at hc
    · simp
  rw [validate, h1]
  dsimp only
  simp only [Except.bind, h2, Bool.not_true, Bool.false_eq_true, if_false]
  rw [jsGet_of_not_nullish uc "components" (nullish_of_truthy uc h2), h3]
  simp only [Except.bind]
  rw [hl]
  simp only [Except.bind, hne, Bool.false_eq_true, if_false, strOptTruthy, Option.getD]
  simp [hloop]

/-- Witness for C2: a Button with no direct label whose child "t1" is a Text
component with text "Go", matched against the expected literal "Go". -/
theorem c2_witness :
    validate ⟨"Button", some "label", .val (.str "Go"), false⟩
      (mkMsg [.obj [("id", .str "b1"),
                    ("props", .obj [("component", .str "Button"), ("child", .str "t1")])],
              .obj [("id", .str "t1"),
                    ("props", .obj [("component", .str "Text"), ("text", .str "Go")])]]) =
      .ok ⟨true, none⟩ :=
  c2_button_child_text (.val (.str "Go")) false _
    (.obj [("components", .arr
      [.obj [("id", .str "b1"),
             ("props", .obj [("component", .str "Button"), ("child", .str "t1")])],
       .obj [("id", .str "t1"),
             ("props", .obj [("component", .str "Text"), ("text", .str "Go")])]])])
    [.obj [("id", .str "b1"),
           ("props", .obj [("component", .str "Button"), ("child", .str "t1")])],
     .obj [("id", .str "t1"),
           ("props", .obj [("component", .str "Text"), ("text", .str "Go")])]]
    [.obj [("id", .str "b1"),
           ("props", .obj [("component", .str "Button"), ("child", .str "t1")])]]
    (.obj [("id", .str "b1"),
           ("props", .obj [("component", .str "Button"), ("child", .str "t1")])])
    (.obj [("component", .str "Button"), ("child", .str "t1")])
    (.obj [("id", .str "t1"),
           ("props", .obj [("component", .str "Text"), ("text", .str "Go")])])
    (.obj [("component", .str "Text"), ("text", .str "Go")])
    rfl rfl rfl rfl (by simp) rfl rfl rfl rfl rfl rfl rfl rfl rfl
    (by simp [dotGet, findField, valueMatches, compareStrings])

/-- The domain on which `validate` performs no member access on
`null`/`undefined` (forced by the C4 counterexample): the message itself is
not nullish and, when a truthy `updateComponents` carries an array
`components` field, that array has no nullish elements. -/
def safeMessage (v : JValue) : Bool :=
  !nullish v &&
    (!truthy (dotGet v "updateComponents") ||
      (match dotGet (dotGet v "updateComponents") "components" with
       | .arr comps => comps.all (fun c => !nullish c)
       | _ => true))

/-- Claim C4 counterexample: on the message
`{ updateComponents: { components: [null] } }` the filter callback evaluates
`c.props` on `null` and `validate` throws a `TypeError` instead of returning
a `ValidationResult`. -/
theorem c4_counterexample :
    validate ⟨"Button", none, .val .undefined, false⟩ (mkMsg [.null]) = .error () := rfl

/-- Claim C4 (amended): on every message in `safeMessage` (no member access
hits `null`/`undefined`), `validate` returns a `ValidationResult`, and every
failing outcome carries an error message. -/
theorem c4_no_throw (m : UpdateComponentsSchemaMatcher) (v : JValue)
    (hs : safeMessage v = true) :
    ∃ r, validate m v = .ok r ∧ (r.success = false → r.error ≠ none) := by
  have hn : nullish v = false := by
    have h2 := hs
    simp [safeMessage] at h2
    exact h2.1
  rw [validate, jsGet_of_not_nullish v "updateComponents" hn]
  simp only [Except.bind]
  by_cases ht : truthy (dotGet v "updateComponents") = true
  case neg =>
    rw [if_pos (by simp [ht] : (!truthy (dotGet v "updateComponents")) = true)]
    exact ⟨⟨false, some errNoUpdate⟩, rfl, by simp⟩
  rw [if_neg (by simp [ht] : ¬(!truthy (dotGet v "updateComponents")) = true)]
  rw [jsGet_of_not_nullish _ "components" (nullish_of_truthy _ ht)]
  simp only [Except.bind]
  cases hd : dotGet (dotGet v "updateComponents") "components" with
  | arr comps =>
    have hall : ∀ x ∈ comps, nullish x = false := by
      simp only [safeMessage, hn, Bool.not_false, Bool.true_and, ht,
        Bool.not_true, Bool.false_or, hd] at hs
      intro x hx
      simpa using List.all_eq_true.mp hs x hx
    obtain ⟨l, hl⟩ := matchingComponentsE_isOk m.componentType comps hall
    dsimp only
    rw [hl]
    simp only [Except.bind]
    by_cases hlen : (l.length == 0) = true
    · rw [if_pos hlen]
      exact ⟨⟨false, some (errNoType m.componentType)⟩, rfl, by simp⟩
    · rw [if_neg hlen]
      by_cases hpn : (!strOptTruthy m.propertyName) = true
      · rw [if_pos hpn]
        exact ⟨⟨true, none⟩, rfl, by simp⟩
      · rw [if_neg hpn]
        have hsub := matchingComponentsE_sub m.componentType comps l hl
        obtain ⟨o, ho⟩ := componentLoopE_isOk m (m.propertyName.getD "") comps l
          (fun x hx => componentStepE_isOk _ _ _ _ (hall x (hsub x hx)) hall)
        rw [ho]
        simp only [Except.bind]
        cases o with
        | some res =>
          have hres := componentLoopE_some m _ comps l res ho
          subst hres
          exact ⟨⟨true, none⟩, rfl, by simp⟩
        | none =>
          by_cases hv : expIsUndefined m.propertyValue = true
          · rw [if_pos hv]
            exact ⟨⟨false, some (errNoProp m.componentType (m.propertyName.getD ""))⟩,
              rfl, by simp⟩
          · rw [if_neg hv]
            exact ⟨⟨false, some (errNoPropVal m.componentType (m.propertyName.getD "")
              m.propertyValue)⟩, rfl, by simp⟩
  | undefined => exact ⟨⟨false, some errCompsNotArray⟩, rfl, by simp⟩
  | null => exact ⟨⟨false, some errCompsNotArray⟩, rfl, by simp⟩
  | bool b => exact ⟨⟨false, some errCompsNotArray⟩, rfl, by simp⟩
  | num n => exact ⟨⟨false, some errCompsNotArray⟩, rfl, by simp⟩
  | str s => exact ⟨⟨false, some errCompsNotArray⟩, rfl, by simp⟩
  | obj fs => exact ⟨⟨false, some errCompsNotArray⟩, rfl, by simp⟩

/-- Witness for C4 (amended) at an empty components array. -/
theorem c4_witness :
    ∃ r, validate ⟨"Button", none, .val .undefined, false⟩ (mkMsg []) = .ok r ∧
      (r.success = false → r.error ≠ none) :=
  c4_no_throw ⟨"Button", none, .val .undefined, false⟩ (mkMsg []) rfl

/-! ## Explicit-state embedding for the frame claim

The matcher configuration (`this.componentType`, `this.propertyName`,
`this.propertyValue`, `this.caseInsensitive`) and the input message form an
explicit state that is threaded through every statement of `validate`.  The
source method contains only reads of that state (there is no assignment to
`this.*` and none to any part of `schema`), so each statement passes the
state through; helper computations (`jsGet`, `valueMatches`,
`getComponentById`, the filter) are pure functions of their arguments, with
the configuration fields they read passed in from the state at the call
site, exactly as the source reads them. -/

/-- The Button/label special case with explicit state threading. -/
def buttonCheckST (st : UpdateComponentsSchemaMatcher × JValue) (pn : String)
    (components : List JValue) (properties : JValue) :
    Except Unit (Option ValidationResult) × (UpdateComponentsSchemaMatcher × JValue) :=
  if st.1.componentType == "Button" && pn == "label" then
    match jsGet properties "child" with
    | .error e => (.error e, st)
    | .ok child =>
      if truthy child then
        match getComponentById components child with
        | .error e => (.error e, st)
        | .ok childComponent =>
          if truthy childComponent then
            match jsGet childComponent "props" with
            | .error e => (.error e, st)
            | .ok ccProps =>
              if truthy ccProps then
                match jsGet ccProps "component" with
                | .error e => (.error e, st)
                | .ok ccType =>
                  if jsStrictEq ccType (.str "Text") then
                    match jsGet ccProps "text" with
                    | .error e => (.error e, st)
                    | .ok textValue =>
                      if valueMatches st.1.caseInsensitive textValue st.1.propertyValue then
                        (.ok (some ⟨true, none⟩), st)
                      else (.ok none, st)
                  else (.ok none, st)
              else (.ok none, st)
          else (.ok none, st)
      else (.ok none, st)
  else (.ok none, st)

/-- One loop iteration with explicit state threading. -/
def componentStepST (st : UpdateComponentsSchemaMatcher × JValue) (pn : String)
    (components : List JValue) (component : JValue) :
    Except Unit (Option ValidationResult) × (UpdateComponentsSchemaMatcher × JValue) :=
  match jsGet component "props" with
  | .error e => (.error e, st)
  | .ok properties =>
    if truthy properties then
      match jsGet properties pn with
      | .error e => (.error e, st)
      | .ok actualValue =>
        if !isUndef actualValue then
          if expIsUndefined st.1.propertyValue then (.ok (some ⟨true, none⟩), st)
          else if valueMatches st.1.caseInsensitive actualValue st.1.propertyValue then
            (.ok (some ⟨true, none⟩), st)
          else buttonCheckST st pn components properties
        else buttonCheckST st pn components properties
    else (.ok none, st)

/-- The loop with explicit state threading (each iteration runs in the state
returned by the previous one). -/
def componentLoopST (st : UpdateComponentsSchemaMatcher × JValue) (pn : String)
    (components : List JValue) :
    List JValue → Except Unit (Option ValidationResult) × (UpdateComponentsSchemaMatcher × JValue)
  | [] => (.ok none, st)
  | c :: rest =>
    match componentStepST st pn components c with
    | (.error e, st2) => (.error e, st2)
    | (.ok (some res), st2) => (.ok (some res), st2)
    | (.ok none, st2) => componentLoopST st2 pn components rest

/-- `validate` with the matcher configuration and the message as explicit
threaded state. -/
def validateST (st : UpdateComponentsSchemaMatcher × JValue) :
    Except Unit ValidationResult × (UpdateComponentsSchemaMatcher × JValue) :=
  match jsGet st.2 "updateComponents" with
  | .error e => (.error e, st)
  | .ok uc =>
    if !truthy uc then (.ok ⟨false, some errNoUpdate⟩, st)
    else
      match jsGet uc "components" with
      | .error e => (.error e, st)
      | .ok comps =>
        match comps with
        | .arr components =>
          match matchingComponentsE st.1.componentType components with
          | .error e => (.error e, st)
          | .ok matching =>
            if matching.length == 0 then
              (.ok ⟨false, some (errNoType st.1.componentType)⟩, st)
            else if !strOptTruthy st.1.propertyName then (.ok ⟨true, none⟩, st)
            else
              match componentLoopST st (st.1.propertyName.getD "") components matching with
              | (.error e, st2) => (.error e, st2)
              | (.ok (some res), st2) => (.ok res, st2)
              | (.ok none, st2) =>
                if expIsUndefined st2.1.propertyValue then
                  (.ok ⟨false, some (errNoProp st2.1.componentType
                    (st2.1.propertyName.getD ""))⟩, st2)
                else
                  (.ok ⟨false, some (errNoPropVal st2.1.componentType
                    (st2.1.propertyName.getD "") st2.1.propertyValue)⟩, st2)
        | _ => (.ok ⟨false, some errCompsNotArray⟩, st)

theorem buttonCheckST_spec (st : UpdateComponentsSchemaMatcher × JValue) (pn : String)
    (components : List JValue) (properties : JValue) :
    buttonCheckST st pn components properties =
      (buttonCheckE st.1 pn components properties, st) := by
  unfold buttonCheckST buttonCheckE
  simp only [Except.bind]
  repeat' split
  all_goals try rfl
  all_goals simp_all

theorem componentStepST_spec (st : UpdateComponentsSchemaMatcher × JValue) (pn : String)
    (components : List JValue) (component : JValue) :
    componentStepST st pn components component =
      (componentStepE st.1 pn components component, st) := by
  unfold componentStepST componentStepE
  simp only [Except.bind, buttonCheckST_spec]
  repeat' split
  all_goals try rfl
  all_goals simp_all

theorem componentLoopST_spec (st : UpdateComponentsSchemaMatcher × JValue) (pn : String)
    (components : List JValue) (l : List JValue) :
    componentLoopST st pn components l =
      (componentLoopE st.1 pn components l, st) := by
  induction l generalizing st with
  | nil => rfl
  | cons c rest ih =>
    rw [componentLoopST, componentLoopE, componentStepST_spec]
    simp only [Except.bind]
    cases componentStepE st.1 pn components c with
    | error e => rfl
    | ok o =>
      cases o with
      | some res => rfl
      | none => exact ih st

/-- Claim C9: `validate` is observationally pure with respect to its explicit
state.  Threading the matcher configuration fields and the input message as
explicit state through every statement of the algorithm (`validateST`)
computes the same result as the pure function `validate` and returns the
state — all four configuration fields and the message — unchanged. -/
theorem c9_validate_frame (m : UpdateComponentsSchemaMatcher) (v : JValue) :
    validateST (m, v) = (validate m v, (m, v)) := by
  unfold validateST validate
  dsimp only
  cases jsGet v "updateComponents" with
  | error e => rfl
  | ok uc =>
    simp only [Except.bind]
    split
    · rfl
    · cases jsGet uc "components" with
      | error e => rfl
      | ok comps =>
        simp only [Except.bind]
        cases comps with
        | arr components =>
          dsimp only
          cases matchingComponentsE m.componentType components with
          | error e => rfl
          | ok matching =>
            simp only [Except.bind]
            split
            · rfl
            · split
              · rfl
              · rw [componentLoopST_spec]
                dsimp only
                cases componentLoopE m (m.propertyName.getD "") components matching with
                | error e => rfl
                | ok o =>
                  cases o with
                  | some res => rfl
                  | none =>
                    dsimp only
                    split <;> rfl
        | undefined => rfl
        | null => rfl
        | bool b => rfl
        | num n => rfl
        | str s => rfl
        | obj fs => rfl

end A2UI
